import Mathlib

/-!
Verification of the predictables-graph force-simulation engine.

The Rust sources contain two sibling implementations of the force simulation:
`src/simulation/force_simulation.rs` (modelled below in namespace `Sim`) and
`src/graph/force_simulation.rs` (modelled in namespace `GraphMod`), sharing
`Vector2D` (src/math/vector_2d.rs), `Node` (src/graph/node.rs), `Edge`
(src/graph/edge.rs) and the zone partition (src/graph/zone/major_zone.rs).

Floating-point `f64` values are modelled as real numbers; `f64::atan2` is the
mathematical two-argument arctangent, `f64::max` is `max`, `%` on `f64` is the
remainder with the sign of the dividend (`rustRem`).  Rust `Vec` caches indexed
by `usize` are modelled as total functions from `ℕ`; every modelled loop has
been checked to stay in bounds for the inputs the theorems use.  Operations
whose Rust originals can panic (an `unwrap` on a missing edge, a `usize`
subtraction that underflows) are modelled as `Option`-valued, returning `none`
exactly when the original panics.
-/

namespace PredGraph

noncomputable section

open Real

/-- Mathematical two-argument arctangent: `atan2 y x` is the polar angle of the
point `(x, y)`, in `(-π, π]`, with `atan2 0 0 = 0`.  This is the function
computed by `f64::atan2` (src/math/vector_2d.rs, `angle`). -/
def atan2 (y x : ℝ) : ℝ :=
  if 0 < x then arctan (y / x)
  else if x < 0 then
    (if 0 ≤ y then arctan (y / x) + π else arctan (y / x) - π)
  else
    (if 0 < y then π / 2 else if y < 0 then -(π / 2) else 0)

/-- Model of `Vector2D<f64>` from src/math/vector_2d.rs. -/
structure Vector2D where
  x : ℝ
  y : ℝ

namespace Vector2D

/-- Constructor `Vector2D::from_xy`. -/
def from_xy (x y : ℝ) : Vector2D := ⟨x, y⟩

/-- Componentwise sum, `Vector2D::add` and the `+` operator. -/
def add (v w : Vector2D) : Vector2D := ⟨v.x + w.x, v.y + w.y⟩

/-- Componentwise difference, `Vector2D::sub` and the `-` operator. -/
def sub (v w : Vector2D) : Vector2D := ⟨v.x - w.x, v.y - w.y⟩

/-- Negation (multiplication of each component by `-1.0`). -/
def neg (v : Vector2D) : Vector2D := ⟨v.x * (-1), v.y * (-1)⟩

/-- Scalar multiplication, the `Mul<T> for Vector2D` operator. -/
def mulScalar (v : Vector2D) (c : ℝ) : Vector2D := ⟨v.x * c, v.y * c⟩

/-- Scalar division, the `Div<T> for Vector2D` operator. -/
def divScalar (v : Vector2D) (c : ℝ) : Vector2D := ⟨v.x / c, v.y / c⟩

/-- Dot product `Vector2D::dot`. -/
def dot (v w : Vector2D) : ℝ := v.x * w.x + v.y * w.y

/-- Euclidean norm `Vector2D::magnitude`, written exactly as in the source:
`(self.x * self.x + self.y * self.y).sqrt()`. -/
def magnitude (v : Vector2D) : ℝ := Real.sqrt (v.x * v.x + v.y * v.y)

/-- `Vector2D::distance`: `self.sub(other).magnitude()`. -/
def distance (v w : Vector2D) : ℝ := (v.sub w).magnitude

/-- `Vector2D::angle`: `self.y.atan2(self.x)`. -/
def angle (v : Vector2D) : ℝ := atan2 v.y v.x

/-- `Vector2D::relative_to`: `self.sub(other)`. -/
def relative_to (v w : Vector2D) : Vector2D := v.sub w

/-- Polar constructor `Vector2D::from_rtheta`. -/
def from_rtheta (radius angle : ℝ) : Vector2D :=
  ⟨radius * Real.cos angle, radius * Real.sin angle⟩

end Vector2D

/-- Truncation toward zero, the rounding used by the Rust `%` operator on
`f64` (`x % y = x - y * trunc (x / y)`). -/
def rustTrunc (q : ℝ) : ℝ := if 0 ≤ q then (⌊q⌋ : ℤ) else -(⌊-q⌋ : ℤ)

/-- The Rust `%` operator on `f64`: remainder with the sign of the dividend. -/
def rustRem (x y : ℝ) : ℝ := x - y * rustTrunc (x / y)

/-- Model of `Node` from src/graph/node.rs (all fields of the Rust struct). -/
structure Node where
  id : ℕ
  label : String
  position : Vector2D
  velocity : Vector2D
  mass : ℝ
  radius : ℝ
  edge_color : String
  fill : String

/-- `Node::default()` from src/graph/node.rs. -/
def Node.default : Node :=
  { id := 0, label := "", position := Vector2D.from_xy 1 1,
    velocity := Vector2D.from_xy 0 0, mass := 1, radius := 1,
    edge_color := "black", fill := "transparent" }

/-- Model of `Edge` from src/graph/edge.rs. -/
structure Edge where
  node1_idx : ℕ
  node2_idx : ℕ
  weight : ℝ

/-- `Edge::has_node` from src/graph/edge.rs. -/
def Edge.hasNode (e : Edge) (node_idx : ℕ) : Bool :=
  e.node1_idx == node_idx || e.node2_idx == node_idx

/-- `get_node_mass`, identical in src/simulation/force_simulation.rs (lines
131-139) and src/graph/force_simulation.rs (lines 161-169): the sum of the
weights of the edges incident on the node index. -/
def getNodeMass (edges : List Edge) (node_idx : ℕ) : ℝ :=
  edges.foldl
    (fun total_mass edge =>
      if edge.node1_idx = node_idx ∨ edge.node2_idx = node_idx then
        total_mass + edge.weight
      else total_mass) 0


end

/-- Model of the `MajorZone` enum from src/graph/zone/major_zone.rs. -/
inductive MajorZone where
  | TopLeft
  | TopMiddle
  | TopRight
  | MiddleLeft
  | MiddleMiddle
  | MiddleRight
  | BottomLeft
  | BottomMiddle
  | BottomRight
deriving DecidableEq, BEq, Fintype

namespace MajorZone

/-- `MajorZone::get_zone_index` (row-major index 0-8). -/
def get_zone_index : MajorZone → ℕ
  | TopLeft => 0
  | TopMiddle => 1
  | TopRight => 2
  | MiddleLeft => 3
  | MiddleMiddle => 4
  | MiddleRight => 5
  | BottomLeft => 6
  | BottomMiddle => 7
  | BottomRight => 8

/-- `MajorZone::adjacent` (src/graph/zone/major_zone.rs lines 151-212),
transcribed list for list. -/
def adjacent : MajorZone → List MajorZone
  | TopLeft => [TopMiddle, MiddleLeft, MiddleMiddle]
  | TopMiddle => [TopLeft, TopRight, MiddleLeft, MiddleMiddle, MiddleRight]
  | TopRight => [TopMiddle, MiddleMiddle, MiddleRight]
  | MiddleLeft => [TopLeft, TopMiddle, MiddleMiddle, BottomLeft, BottomMiddle]
  | MiddleMiddle =>
      [TopLeft, TopMiddle, TopRight, MiddleLeft, MiddleRight, BottomLeft,
        BottomMiddle, BottomRight]
  | MiddleRight => [TopMiddle, TopRight, MiddleMiddle, BottomMiddle, BottomRight]
  | BottomLeft => [MiddleLeft, MiddleMiddle, BottomMiddle]
  | BottomMiddle => [MiddleLeft, MiddleMiddle, MiddleRight, BottomLeft, BottomRight]
  | BottomRight => [MiddleMiddle, MiddleRight, BottomMiddle]

/-- `MajorZone::is_adjacent_to`: membership in the `adjacent` list. -/
def is_adjacent_to (z other : MajorZone) : Bool :=
  z.adjacent.contains other

end MajorZone

/-! Machinery for sequences of indexed writes into a cache.  The Rust code
updates `Vec`-backed caches in nested loops; each loop is modelled as the left
fold of its ordered list of writes over the cache, so the model performs the
same assignments in the same order as the source. -/

/-- One assignment `f[i] = v` into a flat cache. -/
def set1 {α : Type} (f : ℕ → α) (i : ℕ) (v : α) : ℕ → α :=
  fun a => if a = i then v else f a

/-- One assignment `m[i][j] = v` into a square cache. -/
def set2 {α : Type} (m : ℕ → ℕ → α) (i j : ℕ) (v : α) : ℕ → ℕ → α :=
  fun a b => if a = i ∧ b = j then v else m a b

/-- Apply an ordered list of writes `m[c.1][c.2] = v` to a square cache. -/
def applyWrites2 {α : Type} (m : ℕ → ℕ → α) (ws : List ((ℕ × ℕ) × α)) :
    ℕ → ℕ → α :=
  ws.foldl (fun acc w => set2 acc w.1.1 w.1.2 w.2) m

/-- Apply an ordered list of writes `f[i] = v` to a flat cache. -/
def applyWrites1 {α : Type} (f : ℕ → α) (ws : List (ℕ × α)) : ℕ → α :=
  ws.foldl (fun acc w => set1 acc w.1 w.2) f

noncomputable section

open Real

/-- Rust `Vec` indexing `nodes[i]`.  Indexing out of bounds panics in Rust;
every modelled loop below stays in bounds, so the default is never produced. -/
def nodeGet (nodes : List Node) (i : ℕ) : Node := nodes.getD i Node.default

/-! Model of src/simulation/force_simulation.rs (the module that
src/lib.rs wires to the wasm entry points).  Its `apply_forces` and
`calculate_forces` contain code that cannot compile as written (a `let` with a
`vec!` macro in type position, mutation of immutable bindings, a missing
return type); they are modelled by the evident meaning of their text, with
`Option` capturing the `unwrap` panics. -/

namespace Sim

/-- Inner loop range `j in (i+1)..n` of the cache-update loops. -/
def pairsFrom (n i : ℕ) : List ℕ := List.range' (i + 1) (n - (i + 1))

/-- Ordered pair enumeration of the `calculate_forces` loops:
`for i in 0..n { for j in (i+1)..n }`. -/
def pairList (n : ℕ) : List (ℕ × ℕ) :=
  (List.range n).flatMap (fun i => (pairsFrom n i).map (fun j => (i, j)))

/-- Model of the `ForceSimulation` struct of src/simulation/force_simulation.rs. -/
structure ForceSimulation where
  nodes : List Node
  edges : List Edge
  positions : List Vector2D
  velocities : List Vector2D
  distances : ℕ → ℕ → ℝ
  directions : ℕ → ℕ → ℝ
  masses : List ℝ
  time_step : ℝ
  repulsion_constant : ℝ
  attraction_constant : ℝ

/-- `ForceSimulation::new` (lines 21-53): caches positions, velocities and the
caller-supplied node masses; zero-initialises the distance and direction
matrices.  No validation of edges or weights is performed. -/
def new (nodes : List Node) (edges : List Edge)
    (time_step repulsion_constant attraction_constant : ℝ) : ForceSimulation :=
  { nodes := nodes
    edges := edges
    positions := nodes.map Node.position
    velocities := nodes.map Node.velocity
    distances := fun _ _ => 0
    directions := fun _ _ => 0
    masses := nodes.map Node.mass
    time_step := time_step
    repulsion_constant := repulsion_constant
    attraction_constant := attraction_constant }

/-- `attractive_force_n1_exerts_on_n2` (lines 65-73): magnitude
`attraction_constant * weight / distance^2`. -/
def attractive_force_n1_exerts_on_n2
    (attraction_constant distance weight direction : ℝ) : Vector2D :=
  Vector2D.from_rtheta (attraction_constant * weight / distance ^ 2) direction

/-- `repulsive_force_n1_exerts_on_n2` (lines 145-154): magnitude
`repulsion_constant * n1_mass * n2_mass / distance^2`. -/
def repulsive_force_n1_exerts_on_n2
    (repulsion_constant distance n1_mass n2_mass direction : ℝ) : Vector2D :=
  Vector2D.from_rtheta (repulsion_constant * n1_mass * n2_mass / distance ^ 2)
    direction

/-- `total_force_n1_exerts_on_n2` (lines 156-163): clamps the distance with
`.max(1e-5)` and returns `attractive_force - repulsive_force`. -/
def total_force_n1_exerts_on_n2 (repulsion_constant attraction_constant : ℝ)
    (n1 n2 : Node) (weight : ℝ) : Vector2D :=
  let distance := max (n1.position.distance n2.position) 1e-5
  let direction := (n1.position.relative_to n2.position).angle
  (attractive_force_n1_exerts_on_n2 attraction_constant distance weight
      direction).sub
    (repulsive_force_n1_exerts_on_n2 repulsion_constant distance n1.mass n2.mass
      direction)

/-- `acceleration_from_force_n1_exerts_on_n2` (lines 55-63). -/
def acceleration_from_force_n1_exerts_on_n2 (rc ac : ℝ) (n1 n2 : Node)
    (weight : ℝ) : Vector2D :=
  (total_force_n1_exerts_on_n2 rc ac n1 n2 weight).divScalar n2.mass

/-- `chg_in_position_from_force_n1_exerts_on_n2` (lines 76-93): the kinematics
form `pf = p0 + v0*dt + a*dt^2/2`, returned as `pf - p0`. -/
def chg_in_position_from_force_n1_exerts_on_n2 (rc ac : ℝ) (n1 n2 : Node)
    (weight delta_time : ℝ) : Vector2D :=
  let v0 := n2.velocity
  let p0 := n2.position
  let a := acceleration_from_force_n1_exerts_on_n2 rc ac n1 n2 weight
  let pf := (p0.add (v0.mulScalar delta_time)).add
    ((a.mulScalar (delta_time ^ 2)).divScalar 2)
  pf.sub p0

/-- `chg_in_velocity_from_force_n1_exerts_on_n2` (lines 95-104): returns
`n2.velocity + acceleration * delta_time` (the full new velocity, although the
caller accumulates it as a delta). -/
def chg_in_velocity_from_force_n1_exerts_on_n2 (rc ac : ℝ) (n1 n2 : Node)
    (weight delta_time : ℝ) : Vector2D :=
  n2.velocity.add
    ((acceleration_from_force_n1_exerts_on_n2 rc ac n1 n2 weight).mulScalar
      delta_time)

/-- `get_edge_connecting_nodes` (lines 106-110): first edge incident on both
indices. -/
def get_edge_connecting_nodes (edges : List Edge) (node1_idx node2_idx : ℕ) :
    Option Edge :=
  edges.find? (fun edge => edge.hasNode node1_idx && edge.hasNode node2_idx)

/-- `get_node_mass` as a method of this struct. -/
def get_node_mass (fs : ForceSimulation) (node_idx : ℕ) : ℝ :=
  getNodeMass fs.edges node_idx

/-- Ordered list of writes performed by `update_distances` (lines 166-176):
for every `i`, write `[i][i] = 0`, then for every `j > i` write the distance
into `[i][j]` and `[j][i]`. -/
def distWrites (nodes : List Node) : List ((ℕ × ℕ) × ℝ) :=
  (List.range nodes.length).flatMap (fun i =>
    ((i, i), (0 : ℝ)) ::
      (pairsFrom nodes.length i).flatMap (fun j =>
        [((i, j), (nodeGet nodes i).position.distance (nodeGet nodes j).position),
          ((j, i), (nodeGet nodes i).position.distance (nodeGet nodes j).position)]))

/-- `update_distances` (lines 166-176). -/
def update_distances (fs : ForceSimulation) : ForceSimulation :=
  { fs with distances := applyWrites2 fs.distances (distWrites fs.nodes) }

/-- Ordered list of writes performed by `update_directions` (lines 179-195):
for every `i`, write `[i][i] = 0`, then for every `j > i` write the angle of
`position i` relative to `position j` into `[i][j]` and
`(angle + π) % (2π)` into `[j][i]`. -/
def dirWrites (nodes : List Node) : List ((ℕ × ℕ) × ℝ) :=
  (List.range nodes.length).flatMap (fun i =>
    ((i, i), (0 : ℝ)) ::
      (pairsFrom nodes.length i).flatMap (fun j =>
        [((i, j),
            ((nodeGet nodes i).position.relative_to
              (nodeGet nodes j).position).angle),
          ((j, i),
            rustRem (((nodeGet nodes i).position.relative_to
              (nodeGet nodes j).position).angle + π) (2 * π))]))

/-- `update_directions` (lines 179-195). -/
def update_directions (fs : ForceSimulation) : ForceSimulation :=
  { fs with directions := applyWrites2 fs.directions (dirWrites fs.nodes) }

/-- `update_masses` (lines 212-216): recompute every cached mass from the
current edges.  Defined in the source but never called from `step`. -/
def update_masses (fs : ForceSimulation) : ForceSimulation :=
  { fs with
    masses := (List.range fs.nodes.length).map (fun i => getNodeMass fs.edges i) }

/-- `calculate_forces` (lines 227-255): for every pair `i < j`, look up the
connecting edge (`unwrap` panics when absent, modelled by `none`) and store
the total force and its negation into an n-by-n matrix. -/
def calculate_forces (fs : ForceSimulation) : Option (ℕ → ℕ → Vector2D) :=
  (pairList fs.nodes.length).foldlM
    (fun total_forces ij =>
      match get_edge_connecting_nodes fs.edges ij.1 ij.2 with
      | none => none
      | some edge =>
          let f := total_force_n1_exerts_on_n2 fs.repulsion_constant
            fs.attraction_constant (nodeGet fs.nodes ij.1) (nodeGet fs.nodes ij.2)
            edge.weight
          some (set2 (set2 total_forces ij.1 ij.2 f) ij.2 ij.1 f.neg))
    (fun _ _ => Vector2D.from_xy 0 0)

/-- Ordered pair enumeration of the `apply_forces` loops:
`for i in 0..(n-1) { for j in 0..(n-1) }`. -/
def sqPairs (m : ℕ) : List (ℕ × ℕ) :=
  (List.range m).flatMap (fun i => (List.range m).map (fun j => (i, j)))

/-- `apply_forces` (lines 267-303): calls `calculate_forces` (result unused,
but its `unwrap` panics still fire), then for every `(i, j)` in the truncated
square loop adds the per-pair position and velocity changes into slot `i`. -/
def apply_forces (fs : ForceSimulation) :
    Option ((ℕ → Vector2D) × (ℕ → Vector2D)) := do
  let _ ← calculate_forces fs
  (sqPairs (fs.nodes.length - 1)).foldlM
    (fun dpv ij =>
      match get_edge_connecting_nodes fs.edges ij.1 ij.2 with
      | none => none
      | some edge =>
          some
            (set1 dpv.1 ij.1 ((dpv.1 ij.1).add
                (chg_in_position_from_force_n1_exerts_on_n2 fs.repulsion_constant
                  fs.attraction_constant (nodeGet fs.nodes ij.1)
                  (nodeGet fs.nodes ij.2) edge.weight fs.time_step)),
              set1 dpv.2 ij.1 ((dpv.2 ij.1).add
                (chg_in_velocity_from_force_n1_exerts_on_n2 fs.repulsion_constant
                  fs.attraction_constant (nodeGet fs.nodes ij.1)
                  (nodeGet fs.nodes ij.2) edge.weight fs.time_step))))
    (fun _ => Vector2D.from_xy 0 0, fun _ => Vector2D.from_xy 0 0)

/-- `update_positions_and_velocities` (lines 306-314): apply the accumulated
deltas to every node. -/
def update_positions_and_velocities (fs : ForceSimulation) :
    Option ForceSimulation := do
  let dpv ← apply_forces fs
  some { fs with
    nodes := fs.nodes.mapIdx (fun i n =>
      { n with position := n.position.add (dpv.1 i),
               velocity := n.velocity.add (dpv.2 i) }) }

/-- `step` (lines 219-224): update the distance and direction caches, call
`apply_forces` (result discarded), then apply the deltas.  Masses are not
recomputed anywhere in this method. -/
def step (fs : ForceSimulation) : Option ForceSimulation := do
  let fs1 := update_distances fs
  let fs2 := update_directions fs1
  let _ ← apply_forces fs2
  update_positions_and_velocities fs2

end Sim

/-! Model of src/graph/force_simulation.rs. -/

namespace GraphMod

/-- Model of the `ForceSimulation` struct of src/graph/force_simulation.rs,
with the flat half-matrix caches as total functions from the flat index. -/
structure ForceSimulation where
  nodes : List Node
  edges : List Edge
  repulsion_constant : ℝ
  attraction_constant : ℝ
  distances : ℕ → ℝ
  directions : ℕ → ℝ
  repulsive_force : ℕ → Vector2D
  attractive_force : ℕ → Vector2D
  total_forces : ℕ → Vector2D

/-- `update_node_mass` (lines 154-159): overwrite every node mass with the sum
of its incident edge weights. -/
def update_node_mass (fs : ForceSimulation) : ForceSimulation :=
  { fs with
    nodes := fs.nodes.mapIdx (fun node_idx n =>
      { n with mass := getNodeMass fs.edges node_idx }) }

/-- `ForceSimulation::new` (lines 28-56): zero-initialise the caches, store
the nodes and edges unchanged, then call `update_node_mass`.  No validation of
edges or weights is performed. -/
def new (nodes : List Node) (edges : List Edge)
    (repulsion_constant attraction_constant : ℝ) : ForceSimulation :=
  update_node_mass
    { nodes := nodes
      edges := edges
      repulsion_constant := repulsion_constant
      attraction_constant := attraction_constant
      distances := fun _ => 0
      directions := fun _ => 0
      repulsive_force := fun _ => Vector2D.from_xy 0 0
      attractive_force := fun _ => Vector2D.from_xy 0 0
      total_forces := fun _ => Vector2D.from_xy 0 0 }

/-- `repulsive_force_n1_exerts_on_n2` (lines 58-67): magnitude
`repulsion_constant * n1_mass * n2_mass / distance^2`. -/
def repulsive_force_n1_exerts_on_n2
    (repulsion_constant distance n1_mass n2_mass direction : ℝ) : Vector2D :=
  Vector2D.from_rtheta (repulsion_constant * n1_mass * n2_mass / distance ^ 2)
    direction

/-- `attractive_force_n1_exerts_on_n2` (lines 69-77): magnitude
`attraction_constant * weight / distance^2`. -/
def attractive_force_n1_exerts_on_n2
    (attraction_constant distance weight direction : ℝ) : Vector2D :=
  Vector2D.from_rtheta (attraction_constant * weight / distance ^ 2) direction

/-- `total_force_n1_exerts_on_n2` (lines 79-86): clamps the distance with
`.max(1e-5)` and returns `repulsive_force + attractive_force`. -/
def total_force_n1_exerts_on_n2 (repulsion_constant attraction_constant : ℝ)
    (n1 n2 : Node) (weight : ℝ) : Vector2D :=
  let distance := max (n1.position.distance n2.position) 1e-5
  let direction := (n1.position.relative_to n2.position).angle
  (repulsive_force_n1_exerts_on_n2 repulsion_constant distance n1.mass n2.mass
      direction).add
    (attractive_force_n1_exerts_on_n2 attraction_constant distance weight
      direction)

/-- Ordered pair enumeration of the `precompute_distances_and_directions`
loops (lines 171-184): `for i in 0..(len-2) { for j in (i+1)..(len-i) }`. -/
def precomputePairs (n : ℕ) : List (ℕ × ℕ) :=
  (List.range (n - 2)).flatMap (fun i =>
    (List.range' (i + 1) ((n - i) - (i + 1))).map (fun j => (i, j)))

/-- `precompute_distances_and_directions` (lines 171-184): write the distance
and angle of each enumerated pair at the running flat index `edge_idx`.  The
loop bound `self.nodes.len() - 2` is a `usize` subtraction, which panics for
fewer than 2 nodes (underflow in debug builds, out-of-bounds indexing after
wraparound in release builds); that panic is modelled by `none`. -/
def precompute_distances_and_directions (fs : ForceSimulation) :
    Option ForceSimulation :=
  if fs.nodes.length < 2 then none
  else
    some { fs with
      distances := applyWrites1 fs.distances
        ((precomputePairs fs.nodes.length).enum.map (fun p =>
          (p.1, (nodeGet fs.nodes p.2.1).position.distance
            (nodeGet fs.nodes p.2.2).position)))
      directions := applyWrites1 fs.directions
        ((precomputePairs fs.nodes.length).enum.map (fun p =>
          (p.1, ((nodeGet fs.nodes p.2.1).position.relative_to
            (nodeGet fs.nodes p.2.2).position).angle))) }

/-- Body of one iteration of `apply_repulsive_forces` (lines 203-223): read
the cached distance and direction at `edge_idx`, and when the distance exceeds
the `1e-5` stability guard, subtract the force `repulsion_constant / d^2`
(no mass factors) from slot `i` and add it to slot `j`. -/
def repulsiveStep (repulsion_constant : ℝ) (distances directions : ℕ → ℝ)
    (total_forces : ℕ → Vector2D) (edge_idx i j : ℕ) : ℕ → Vector2D :=
  let magnitude := distances edge_idx
  let force_direction := directions edge_idx
  if 1e-5 < magnitude then
    let force_magnitude := repulsion_constant / magnitude ^ 2
    let force := Vector2D.from_rtheta force_magnitude force_direction
    let tf1 := set1 total_forces i ((total_forces i).sub force)
    set1 tf1 j ((tf1 j).add force)
  else total_forces

/-- Ordered pair enumeration of the `apply_repulsive_forces` loops:
`for i in 0..(len-2) { for j in i..(len-i) }` (note `j` starts at `i`, unlike
the precompute loop). -/
def repulsivePairs (n : ℕ) : List (ℕ × ℕ) :=
  (List.range (n - 2)).flatMap (fun i =>
    (List.range' i ((n - i) - i)).map (fun j => (i, j)))

/-- `apply_repulsive_forces` (lines 203-223), with the same `len - 2`
underflow panic for fewer than 2 nodes as the precompute loop. -/
def apply_repulsive_forces (fs : ForceSimulation) : Option ForceSimulation :=
  if fs.nodes.length < 2 then none
  else
    some { fs with
      total_forces := (repulsivePairs fs.nodes.length).enum.foldl
        (fun tf p => repulsiveStep fs.repulsion_constant fs.distances
          fs.directions tf p.1 p.2.1 p.2.2)
        fs.total_forces }

/-- Body of the loop of `apply_attractive_forces` (lines 225-237): read the
cached distance and direction at flat index `edge_idx`, form the force of
magnitude `attraction_constant * distance * weight`, add it to the slot of
the first endpoint and subtract it from the slot of the second. -/
def attractiveStep (attraction_constant : ℝ) (distances directions : ℕ → ℝ)
    (total_forces : ℕ → Vector2D) (edge_idx : ℕ) (edge : Edge) :
    ℕ → Vector2D :=
  let distance := distances edge_idx
  let direction := directions edge_idx
  let force_magnitude := attraction_constant * distance * edge.weight
  let force := Vector2D.from_rtheta force_magnitude direction
  let tf1 := set1 total_forces edge.node1_idx
    ((total_forces edge.node1_idx).add force)
  set1 tf1 edge.node2_idx ((tf1 edge.node2_idx).sub force)

/-- `apply_attractive_forces` (lines 225-237).  Unlike the precompute loop
(line 181) and the repulsive loop (line 220), this loop declares
`let mut edge_idx: usize = 0;` but never increments it: every edge reads the
cache cells at flat index 0 (the cell of the first precomputed pair), not the
cells of its own endpoints. -/
def apply_attractive_forces (fs : ForceSimulation) : ForceSimulation :=
  { fs with
    total_forces := fs.edges.foldl
      (fun tf edge => attractiveStep fs.attraction_constant fs.distances
        fs.directions tf 0 edge)
      fs.total_forces }

/-- The integration loop at the end of `update` (lines 197-200):
`velocity += force / mass * dt` followed by `position += velocity * dt`, so
the position update uses the just-updated velocity. -/
def integrate (nodes : List Node) (total_forces : ℕ → Vector2D)
    (delta_time : ℝ) : List Node :=
  nodes.mapIdx (fun i n =>
    let v := n.velocity.add (((total_forces i).divScalar n.mass).mulScalar
      delta_time)
    { n with velocity := v, position := n.position.add (v.mulScalar delta_time) })

/-- `update` (lines 186-201): precompute the caches, reset the total forces,
apply repulsive then attractive forces, then integrate. -/
def update (fs : ForceSimulation) (delta_time : ℝ) : Option ForceSimulation := do
  let fs1 ← precompute_distances_and_directions fs
  let fs2 := { fs1 with total_forces := fun _ => Vector2D.from_xy 0 0 }
  let fs3 ← apply_repulsive_forces fs2
  let fs4 := apply_attractive_forces fs3
  some { fs4 with nodes := integrate fs4.nodes fs4.total_forces delta_time }

end GraphMod

/-- Cell skeleton of one outer iteration of the cache-rebuild loops of
`Sim.update_distances` and `Sim.update_directions`: the diagonal cell followed
by the two symmetric cells of every pair `(i, j)` with `j > i`. -/
def cellsFor (n i : ℕ) : List (ℕ × ℕ) :=
  (i, i) :: (Sim.pairsFrom n i).flatMap (fun j => [(i, j), (j, i)])

/-- All cells written by one rebuild of an n-by-n cache, in write order. -/
def cacheCells (n : ℕ) : List (ℕ × ℕ) := (List.range n).flatMap (cellsFor n)

/-- A node at position `p` with caller-supplied mass `m`, zero velocity and
the builder defaults of src/graph/node.rs elsewhere; used as the concrete
input of several theorems. -/
def nodeAt (p : Vector2D) (m : ℝ) : Node :=
  { id := 0, label := "", position := p, velocity := Vector2D.from_xy 0 0,
    mass := m, radius := 1, edge_color := "black", fill := "transparent" }

end


/-! Theorems. -/

section

open Real


theorem Vector2D.ext_xy (v w : Vector2D) (hx : v.x = w.x) (hy : v.y = w.y) :
    v = w := by
  cases v; cases w; simp_all

theorem rustTrunc_isInt (q : ℝ) : ∃ k : ℤ, rustTrunc q = (k : ℝ) := by
  unfold rustTrunc
  by_cases h : 0 ≤ q
  · exact ⟨⌊q⌋, by simp [h]⟩
  · exact ⟨-⌊-q⌋, by simp [h]⟩

/-- A Rust remainder differs from the dividend by an integer multiple of the
divisor. -/
theorem rustRem_sub_self (x y : ℝ) : ∃ k : ℤ, rustRem x y = x + y * (k : ℝ) := by
  obtain ⟨k, hk⟩ := rustTrunc_isInt (x / y)
  exact ⟨-k, by simp [rustRem, hk]; ring⟩

theorem atan2_zero_zero : atan2 0 0 = 0 := by
  simp [atan2]

theorem atan2_zero_neg_one : atan2 0 (-1) = π := by
  norm_num [atan2]

/-- Auxiliary: the square root appearing in the norm of `(x, y)` is positive
when the vector is nonzero. -/
theorem sqrt_norm_pos {x y : ℝ} (h : ¬(x = 0 ∧ y = 0)) :
    0 < Real.sqrt (x * x + y * y) := by
  apply Real.sqrt_pos.mpr
  rcases not_and_or.mp h with hx | hy
  · nlinarith [mul_self_nonneg y, mul_self_pos.mpr hx]
  · nlinarith [mul_self_nonneg x, mul_self_pos.mpr hy]

/-- Auxiliary algebra for `cos_atan2` and `sin_atan2`: for `x ≠ 0`,
`sqrt (1 + (y/x)^2) = sqrt (x*x + y*y) / |x|`. -/
theorem sqrt_one_add_div_sq {x : ℝ} (hx : x ≠ 0) (y : ℝ) :
    Real.sqrt (1 + (y / x) ^ 2) = Real.sqrt (x * x + y * y) / |x| := by
  have h1 : 1 + (y / x) ^ 2 = (x * x + y * y) / (x * x) := by
    field_simp
    ring
  rw [h1, Real.sqrt_div (by nlinarith [mul_self_nonneg x, mul_self_nonneg y]),
    Real.sqrt_mul_self_eq_abs]

/-- Cosine of the two-argument arctangent: the unit vector at angle
`atan2 y x` has first component `x / sqrt (x*x + y*y)`. -/
theorem cos_atan2 (y x : ℝ) (h : ¬(x = 0 ∧ y = 0)) :
    Real.cos (atan2 y x) = x / Real.sqrt (x * x + y * y) := by
  have hr := sqrt_norm_pos h
  rcases lt_trichotomy x 0 with hx | hx | hx
  · have hx0 : x ≠ 0 := ne_of_lt hx
    have habs : |x| = -x := abs_of_neg hx
    have hcos : Real.cos (arctan (y / x)) = -x / Real.sqrt (x * x + y * y) := by
      rw [Real.cos_arctan, sqrt_one_add_div_sq hx0, habs]
      rw [one_div, inv_div]
    by_cases hy : 0 ≤ y
    · simp only [atan2, not_lt.mpr (le_of_lt hx), if_false, if_pos hx, if_pos hy]
      rw [Real.cos_add, Real.cos_pi, Real.sin_pi, hcos]
      ring
    · simp only [atan2, not_lt.mpr (le_of_lt hx), if_false, if_pos hx, if_neg hy]
      rw [Real.cos_sub, Real.cos_pi, Real.sin_pi, hcos]
      ring
  · subst hx
    have hy : y ≠ 0 := by tauto
    rcases lt_trichotomy y 0 with h1 | h1 | h1
    · simp only [atan2, lt_irrefl, if_false, if_neg (not_lt.mpr (le_refl (0:ℝ))),
        if_neg (not_lt.mpr (le_of_lt h1)), if_pos h1]
      simp
    · exact absurd h1 hy
    · simp only [atan2, lt_irrefl, if_false, if_neg (not_lt.mpr (le_refl (0:ℝ))), if_pos h1]
      simp
  · have hx0 : x ≠ 0 := ne_of_gt hx
    have habs : |x| = x := abs_of_pos hx
    simp only [atan2, if_pos hx]
    rw [Real.cos_arctan, sqrt_one_add_div_sq hx0, habs, one_div, inv_div]

/-- Sine of the two-argument arctangent: the unit vector at angle `atan2 y x`
has second component `y / sqrt (x*x + y*y)`. -/
theorem sin_atan2 (y x : ℝ) (h : ¬(x = 0 ∧ y = 0)) :
    Real.sin (atan2 y x) = y / Real.sqrt (x * x + y * y) := by
  have hr := sqrt_norm_pos h
  rcases lt_trichotomy x 0 with hx | hx | hx
  · have hx0 : x ≠ 0 := ne_of_lt hx
    have habs : |x| = -x := abs_of_neg hx
    have hrne : Real.sqrt (x * x + y * y) ≠ 0 := ne_of_gt hr
    have hsin : Real.sin (arctan (y / x)) = -y / Real.sqrt (x * x + y * y) := by
      rw [Real.sin_arctan, sqrt_one_add_div_sq hx0, habs]
      field_simp
      ring
    by_cases hy : 0 ≤ y
    · simp only [atan2, not_lt.mpr (le_of_lt hx), if_false, if_pos hx, if_pos hy]
      rw [Real.sin_add, Real.cos_pi, Real.sin_pi, hsin]
      ring
    · simp only [atan2, not_lt.mpr (le_of_lt hx), if_false, if_pos hx, if_neg hy]
      rw [Real.sin_sub, Real.cos_pi, Real.sin_pi, hsin]
      ring
  · subst hx
    have hy : y ≠ 0 := by tauto
    rcases lt_trichotomy y 0 with h1 | h1 | h1
    · simp only [atan2, lt_irrefl, if_false, if_neg (not_lt.mpr (le_refl (0:ℝ))),
        if_neg (not_lt.mpr (le_of_lt h1)), if_pos h1]
      rw [Real.sin_neg, Real.sin_pi_div_two]
      rw [show (0:ℝ) * 0 + y * y = y * y by ring]
      rw [show Real.sqrt (y * y) = |y| from Real.sqrt_mul_self_eq_abs y, abs_of_neg h1]
      field_simp
    · exact absurd h1 hy
    · simp only [atan2, lt_irrefl, if_false, if_neg (not_lt.mpr (le_refl (0:ℝ))), if_pos h1]
      rw [Real.sin_pi_div_two]
      rw [show (0:ℝ) * 0 + y * y = y * y by ring]
      rw [show Real.sqrt (y * y) = |y| from Real.sqrt_mul_self_eq_abs y, abs_of_pos h1]
      field_simp
  · have hx0 : x ≠ 0 := ne_of_gt hx
    have hrne : Real.sqrt (x * x + y * y) ≠ 0 := ne_of_gt hr
    have habs : |x| = x := abs_of_pos hx
    simp only [atan2, if_pos hx]
    rw [Real.sin_arctan, sqrt_one_add_div_sq hx0, habs]
    field_simp

/-- A polar vector along the bearing of a nonzero vector `v` is the scalar
multiple `m / |v|` of `v` itself. -/
theorem from_rtheta_angle (m : ℝ) (v : Vector2D) (h : ¬(v.x = 0 ∧ v.y = 0)) :
    Vector2D.from_rtheta m v.angle = v.mulScalar (m / v.magnitude) := by
  unfold Vector2D.from_rtheta Vector2D.angle Vector2D.mulScalar Vector2D.magnitude
  rw [cos_atan2 _ _ h, sin_atan2 _ _ h]
  apply Vector2D.ext_xy <;> simp <;> ring

/-- A polar vector with nonnegative radius has magnitude equal to the radius. -/
theorem from_rtheta_magnitude (m θ : ℝ) (hm : 0 ≤ m) :
    (Vector2D.from_rtheta m θ).magnitude = m := by
  unfold Vector2D.from_rtheta Vector2D.magnitude
  have h1 : m * Real.cos θ * (m * Real.cos θ) + m * Real.sin θ * (m * Real.sin θ)
      = m ^ 2 * (Real.sin θ ^ 2 + Real.cos θ ^ 2) := by ring
  rw [h1, Real.sin_sq_add_cos_sq, mul_one]
  rw [show m ^ 2 = m * m by ring, Real.sqrt_mul_self hm]

/-- Claim C6: major-zone adjacency (as computed by `is_adjacent_to`) is
symmetric and irreflexive, the center zone has row-major index 4, and the
center zone is adjacent to exactly the other 8 zones. -/
theorem C6_zone_adjacency :
    (∀ A B : MajorZone, A.is_adjacent_to B = B.is_adjacent_to A) ∧
    (∀ A : MajorZone, A.is_adjacent_to A = false) ∧
    MajorZone.MiddleMiddle.get_zone_index = 4 ∧
    (∀ B : MajorZone,
      MajorZone.MiddleMiddle.is_adjacent_to B = !(B == MajorZone.MiddleMiddle)) := by
  refine ⟨by decide, by decide, rfl, by decide⟩

theorem applyWrites2_of_not_mem {α : Type} (m : ℕ → ℕ → α)
    (ws : List ((ℕ × ℕ) × α)) (i j : ℕ) (h : (i, j) ∉ ws.map Prod.fst) :
    applyWrites2 m ws i j = m i j := by
  induction ws generalizing m with
  | nil => rfl
  | cons w tl ih =>
      simp only [List.map_cons, List.mem_cons, not_or] at h
      rw [applyWrites2, List.foldl_cons]
      rw [show List.foldl (fun acc w => set2 acc w.1.1 w.1.2 w.2)
          (set2 m w.1.1 w.1.2 w.2) tl = applyWrites2 (set2 m w.1.1 w.1.2 w.2) tl
        from rfl]
      rw [ih _ h.2]
      unfold set2
      have : ¬(i = w.1.1 ∧ j = w.1.2) := by
        intro hc
        exact h.1 (by cases w with | mk c v => cases c; simp_all)
      simp [this]

/-- If the written cells are pairwise distinct, the final value of a written
cell is the value of its (unique) write. -/
theorem applyWrites2_of_mem {α : Type} (m : ℕ → ℕ → α)
    (ws : List ((ℕ × ℕ) × α)) (i j : ℕ) (v : α)
    (hmem : ((i, j), v) ∈ ws) (hnd : (ws.map Prod.fst).Nodup) :
    applyWrites2 m ws i j = v := by
  induction ws generalizing m with
  | nil => cases hmem
  | cons w tl ih =>
      simp only [List.map_cons, List.nodup_cons] at hnd
      rw [applyWrites2, List.foldl_cons]
      rw [show List.foldl (fun acc w => set2 acc w.1.1 w.1.2 w.2)
          (set2 m w.1.1 w.1.2 w.2) tl = applyWrites2 (set2 m w.1.1 w.1.2 w.2) tl
        from rfl]
      rcases List.mem_cons.mp hmem with heq | htl
      · subst heq
        have hnot : (i, j) ∉ tl.map Prod.fst := by simpa using hnd.1
        rw [applyWrites2_of_not_mem _ _ _ _ hnot]
        simp [set2]
      · exact ih _ htl hnd.2

theorem mem_pairsFrom {n i j : ℕ} : j ∈ Sim.pairsFrom n i ↔ i < j ∧ j < n := by
  unfold Sim.pairsFrom
  rw [List.mem_range'_1]
  omega

theorem cellsFor_min {n i : ℕ} {c : ℕ × ℕ} (hc : c ∈ cellsFor n i) :
    min c.1 c.2 = i := by
  unfold cellsFor at hc
  rcases List.mem_cons.mp hc with h | h
  · subst h; simp
  · obtain ⟨j, hj, hcj⟩ := List.mem_flatMap.mp h
    have hij : i < j := (mem_pairsFrom.mp hj).1
    simp only [List.mem_cons, List.mem_singleton, List.not_mem_nil, or_false] at hcj
    rcases hcj with h | h <;> subst h <;> simp [Nat.min_def] <;> omega

theorem cellsFor_nodup (n i : ℕ) : (cellsFor n i).Nodup := by
  unfold cellsFor
  rw [List.nodup_cons]
  constructor
  · intro hmem
    obtain ⟨j, hj, hcj⟩ := List.mem_flatMap.mp hmem
    have hij : i < j := (mem_pairsFrom.mp hj).1
    simp only [List.mem_cons, List.mem_singleton, List.not_mem_nil, or_false,
      Prod.mk.injEq] at hcj
    omega
  · rw [List.nodup_flatMap]
    constructor
    · intro j hj
      have hij : i < j := (mem_pairsFrom.mp hj).1
      simp [Prod.mk.injEq]
      omega
    · have hnd : List.Pairwise (· ≠ ·) (Sim.pairsFrom n i) :=
        List.nodup_range' _ _
      apply hnd.imp
      intro a b hab
      intro c hca hcb
      obtain ⟨c1, c2⟩ := c
      simp only [List.mem_cons, List.mem_singleton, List.not_mem_nil, or_false,
        Prod.mk.injEq] at hca hcb
      omega

theorem cacheCells_nodup (n : ℕ) : (cacheCells n).Nodup := by
  unfold cacheCells
  rw [List.nodup_flatMap]
  refine ⟨fun i _ => cellsFor_nodup n i, ?_⟩
  have hnd : List.Pairwise (· ≠ ·) (List.range n) := List.nodup_range n
  apply hnd.imp
  intro a b hab c hca hcb
  exact hab ((cellsFor_min hca).symm.trans (cellsFor_min hcb))

theorem dirWrites_cells (nodes : List Node) :
    (Sim.dirWrites nodes).map Prod.fst = cacheCells nodes.length := by
  unfold Sim.dirWrites cacheCells cellsFor
  rw [List.map_flatMap]
  apply List.flatMap_congr  -- congruence over the outer list
  intro i _
  simp [List.map_flatMap]

theorem mem_dirWrites_fst (nodes : List Node) (i j : ℕ) (hij : i < j)
    (hj : j < nodes.length) :
    ((i, j),
        ((nodeGet nodes i).position.relative_to (nodeGet nodes j).position).angle)
      ∈ Sim.dirWrites nodes := by
  unfold Sim.dirWrites
  refine List.mem_flatMap.mpr ⟨i, List.mem_range.mpr (by omega), ?_⟩
  refine List.mem_cons.mpr (Or.inr ?_)
  refine List.mem_flatMap.mpr ⟨j, mem_pairsFrom.mpr ⟨hij, hj⟩, ?_⟩
  simp

theorem mem_dirWrites_snd (nodes : List Node) (i j : ℕ) (hij : i < j)
    (hj : j < nodes.length) :
    ((j, i),
        rustRem (((nodeGet nodes i).position.relative_to
          (nodeGet nodes j).position).angle + π) (2 * π))
      ∈ Sim.dirWrites nodes := by
  unfold Sim.dirWrites
  refine List.mem_flatMap.mpr ⟨i, List.mem_range.mpr (by omega), ?_⟩
  refine List.mem_cons.mpr (Or.inr ?_)
  refine List.mem_flatMap.mpr ⟨j, mem_pairsFrom.mpr ⟨hij, hj⟩, ?_⟩
  simp

/-- Claim C4: after `update_directions` rebuilds the direction cache, for
every pair of node indices `i < j` the cached entry at `(i, j)` is the atan2
bearing of the position difference of the two nodes, the entry at `(j, i)` is
that bearing plus π reduced by the Rust `%` operator at modulus 2π, and hence
the two cached directions differ by π up to an integer multiple of 2π. -/
theorem C4_direction_antisymmetry (fs : Sim.ForceSimulation) (i j : ℕ)
    (hij : i < j) (hj : j < fs.nodes.length) :
    (Sim.update_directions fs).directions i j
        = atan2 ((nodeGet fs.nodes i).position.y - (nodeGet fs.nodes j).position.y)
            ((nodeGet fs.nodes i).position.x - (nodeGet fs.nodes j).position.x) ∧
    (Sim.update_directions fs).directions j i
        = rustRem ((Sim.update_directions fs).directions i j + π) (2 * π) ∧
    ∃ k : ℤ, (Sim.update_directions fs).directions j i
        = (Sim.update_directions fs).directions i j + π + 2 * π * (k : ℝ) := by
  have hnd : ((Sim.dirWrites fs.nodes).map Prod.fst).Nodup := by
    rw [dirWrites_cells]; exact cacheCells_nodup _
  have h1 : (Sim.update_directions fs).directions i j
      = ((nodeGet fs.nodes i).position.relative_to
          (nodeGet fs.nodes j).position).angle :=
    applyWrites2_of_mem _ _ _ _ _ (mem_dirWrites_fst fs.nodes i j hij hj) hnd
  have h2 : (Sim.update_directions fs).directions j i
      = rustRem (((nodeGet fs.nodes i).position.relative_to
          (nodeGet fs.nodes j).position).angle + π) (2 * π) :=
    applyWrites2_of_mem _ _ _ _ _ (mem_dirWrites_snd fs.nodes i j hij hj) hnd
  refine ⟨h1, by rw [h1, h2], ?_⟩
  rw [h1, h2]
  obtain ⟨k, hk⟩ :=
    rustRem_sub_self (((nodeGet fs.nodes i).position.relative_to
      (nodeGet fs.nodes j).position).angle + π) (2 * π)
  exact ⟨k, by rw [hk]⟩

/-- Witness for C4 at a concrete two-node simulation. -/
theorem C4_direction_antisymmetry_witness :
    0 < 1 ∧
    1 < (Sim.new [nodeAt (Vector2D.from_xy 0 0) 1, nodeAt (Vector2D.from_xy 1 0) 1]
          [] 1 1 1).nodes.length ∧
    ∃ k : ℤ,
      (Sim.update_directions
          (Sim.new [nodeAt (Vector2D.from_xy 0 0) 1, nodeAt (Vector2D.from_xy 1 0) 1]
            [] 1 1 1)).directions 1 0
        = (Sim.update_directions
            (Sim.new [nodeAt (Vector2D.from_xy 0 0) 1, nodeAt (Vector2D.from_xy 1 0) 1]
              [] 1 1 1)).directions 0 1 + π + 2 * π * (k : ℝ) := by
  have hlen : 1 < (Sim.new
      [nodeAt (Vector2D.from_xy 0 0) 1, nodeAt (Vector2D.from_xy 1 0) 1]
      [] 1 1 1).nodes.length := by
    simp [Sim.new]
  exact ⟨Nat.zero_lt_one, hlen,
    (C4_direction_antisymmetry _ 0 1 Nat.zero_lt_one hlen).2.2⟩

theorem Vector2D.distance_self (v : Vector2D) : v.distance v = 0 := by
  simp [Vector2D.distance, Vector2D.sub, Vector2D.magnitude]

theorem Vector2D.relative_to_self_angle (v : Vector2D) :
    (v.relative_to v).angle = 0 := by
  simp [Vector2D.relative_to, Vector2D.sub, Vector2D.angle]
  exact atan2_zero_zero

theorem from_rtheta_zero_angle (m : ℝ) :
    Vector2D.from_rtheta m 0 = Vector2D.from_xy m 0 := by
  simp [Vector2D.from_rtheta, Vector2D.from_xy]

/-- Claim C5 (code bug): for three nodes, the pair enumeration of
`precompute_distances_and_directions` visits only the pairs (0,1) and (0,2);
the unordered pair of the distinct valid indices 1 and 2 is never visited, and
the corresponding flat cache cell (index 2 in write order) keeps its initial
value 0 even though the distance between those nodes is nonzero.  The sibling
rebuild `update_distances` of the simulation module does enumerate that pair. -/
theorem C5_precompute_skips_pairs :
    GraphMod.precomputePairs 3 = [(0, 1), (0, 2)] ∧
    (1, 2) ∉ GraphMod.precomputePairs 3 ∧
    ((1 : ℕ) < 3 ∧ (2 : ℕ) < 3 ∧ (1 : ℕ) ≠ 2) ∧
    (1, 2) ∈ Sim.pairList 3 ∧
    ((GraphMod.precompute_distances_and_directions
        (GraphMod.new
          [nodeAt (Vector2D.from_xy 0 0) 1, nodeAt (Vector2D.from_xy 1 0) 1,
            nodeAt (Vector2D.from_xy 0 1) 1] [] 1 1)).map
      (fun fs => fs.distances 2)) = some 0 ∧
    (nodeAt (Vector2D.from_xy 1 0) 1).position.distance
        (nodeAt (Vector2D.from_xy 0 1) 1).position ≠ 0 := by
  refine ⟨by decide, by decide, by decide, by decide, rfl, ?_⟩
  unfold nodeAt Vector2D.distance Vector2D.sub Vector2D.magnitude Vector2D.from_xy
  simp only
  intro hc
  rw [show ((1:ℝ) - 0) * (1 - 0) + (0 - 1) * (0 - 1) = 2 by norm_num] at hc
  have h2 : Real.sqrt 2 ≠ 0 := by positivity
  exact h2 hc

theorem Vector2D.add_zero_vec (v : Vector2D) :
    v.add (Vector2D.from_xy 0 0) = v := by
  apply Vector2D.ext_xy <;> simp [Vector2D.add, Vector2D.from_xy]

/-- Net pairwise force of the graph module at coincident positions. -/
theorem graph_total_force_coincident (rc ac w : ℝ) (n1 n2 : Node)
    (hpos : n1.position = n2.position) :
    GraphMod.total_force_n1_exerts_on_n2 rc ac n1 n2 w
      = Vector2D.from_xy ((rc * n1.mass * n2.mass + ac * w) / (1e-5) ^ 2) 0 := by
  have hdist : n1.position.distance n2.position = 0 := by
    rw [hpos]; exact Vector2D.distance_self _
  have hmax : max (n1.position.distance n2.position) 1e-5 = 1e-5 := by
    rw [hdist]; exact max_eq_right (by norm_num)
  have hang : (n1.position.relative_to n2.position).angle = 0 := by
    rw [hpos]; exact Vector2D.relative_to_self_angle _
  simp only [GraphMod.total_force_n1_exerts_on_n2,
    GraphMod.repulsive_force_n1_exerts_on_n2,
    GraphMod.attractive_force_n1_exerts_on_n2, hmax, hang,
    from_rtheta_zero_angle]
  apply Vector2D.ext_xy <;> simp [Vector2D.add, Vector2D.from_xy] <;> ring

/-- Net pairwise force of the simulation module at coincident positions. -/
theorem sim_total_force_coincident (rc ac w : ℝ) (n1 n2 : Node)
    (hpos : n1.position = n2.position) :
    Sim.total_force_n1_exerts_on_n2 rc ac n1 n2 w
      = Vector2D.from_xy ((ac * w - rc * n1.mass * n2.mass) / (1e-5) ^ 2) 0 := by
  have hdist : n1.position.distance n2.position = 0 := by
    rw [hpos]; exact Vector2D.distance_self _
  have hmax : max (n1.position.distance n2.position) 1e-5 = 1e-5 := by
    rw [hdist]; exact max_eq_right (by norm_num)
  have hang : (n1.position.relative_to n2.position).angle = 0 := by
    rw [hpos]; exact Vector2D.relative_to_self_angle _
  simp only [Sim.total_force_n1_exerts_on_n2,
    Sim.repulsive_force_n1_exerts_on_n2,
    Sim.attractive_force_n1_exerts_on_n2, hmax, hang,
    from_rtheta_zero_angle]
  apply Vector2D.ext_xy <;> simp [Vector2D.sub, Vector2D.from_xy] <;> ring

/-- Claim C3: when two nodes share a position, the distance used by
`total_force_n1_exerts_on_n2` (present identically in both modules) is the
clamp floor 1e-5, the repulsive contribution at that clamped distance has
magnitude `repulsion_constant * m1 * m2 / (1e-5)^2`, and the net pairwise
force of each module is the stated finite vector: the computation is total,
with no error value in either code path. -/
theorem C3_clamped_singularity (n1 n2 : Node) (rc ac w : ℝ)
    (hpos : n1.position = n2.position) (hrc : 0 ≤ rc)
    (hm : 0 ≤ n1.mass * n2.mass) :
    max (n1.position.distance n2.position) 1e-5 = 1e-5 ∧
    (GraphMod.repulsive_force_n1_exerts_on_n2 rc (1e-5) n1.mass n2.mass
        ((n1.position.relative_to n2.position).angle)).magnitude
      = rc * n1.mass * n2.mass / (1e-5) ^ 2 ∧
    GraphMod.total_force_n1_exerts_on_n2 rc ac n1 n2 w
      = Vector2D.from_xy ((rc * n1.mass * n2.mass + ac * w) / (1e-5) ^ 2) 0 ∧
    Sim.total_force_n1_exerts_on_n2 rc ac n1 n2 w
      = Vector2D.from_xy ((ac * w - rc * n1.mass * n2.mass) / (1e-5) ^ 2) 0 := by
  have hdist : n1.position.distance n2.position = 0 := by
    rw [hpos]; exact Vector2D.distance_self _
  have hmax : max (n1.position.distance n2.position) 1e-5 = 1e-5 := by
    rw [hdist]; exact max_eq_right (by norm_num)
  have hang : (n1.position.relative_to n2.position).angle = 0 := by
    rw [hpos]; exact Vector2D.relative_to_self_angle _
  have hnn : 0 ≤ rc * n1.mass * n2.mass / (1e-5) ^ 2 := by
    apply div_nonneg _ (by positivity)
    rw [mul_assoc]
    exact mul_nonneg hrc hm
  refine ⟨hmax, ?_, graph_total_force_coincident rc ac w n1 n2 hpos,
    sim_total_force_coincident rc ac w n1 n2 hpos⟩
  rw [hang]
  unfold GraphMod.repulsive_force_n1_exerts_on_n2
  exact from_rtheta_magnitude _ _ hnn

/-- Witness for C3 at two concrete coincident nodes of mass 1. -/
theorem C3_clamped_singularity_witness :
    max ((nodeAt (Vector2D.from_xy 0 0) 1).position.distance
      (nodeAt (Vector2D.from_xy 0 0) 1).position) 1e-5 = 1e-5 ∧
    GraphMod.total_force_n1_exerts_on_n2 1 1 (nodeAt (Vector2D.from_xy 0 0) 1)
        (nodeAt (Vector2D.from_xy 0 0) 1) 1
      = Vector2D.from_xy ((1 * (nodeAt (Vector2D.from_xy 0 0) 1).mass *
          (nodeAt (Vector2D.from_xy 0 0) 1).mass + 1 * 1) / (1e-5) ^ 2) 0 := by
  have h := C3_clamped_singularity (nodeAt (Vector2D.from_xy 0 0) 1)
    (nodeAt (Vector2D.from_xy 0 0) 1) 1 1 1 rfl (by norm_num)
    (by norm_num [nodeAt])
  exact ⟨h.1, h.2.2.1⟩

theorem from_rtheta_pi_angle (m : ℝ) :
    Vector2D.from_rtheta m π = Vector2D.from_xy (-m) 0 := by
  simp [Vector2D.from_rtheta, Vector2D.from_xy]

theorem angle_relative_origin_unit :
    ((Vector2D.from_xy 0 0).relative_to (Vector2D.from_xy 1 0)).angle = π := by
  have h : (Vector2D.from_xy 0 0).relative_to (Vector2D.from_xy 1 0)
      = Vector2D.from_xy (-1) 0 := by
    apply Vector2D.ext_xy <;>
      simp [Vector2D.relative_to, Vector2D.sub, Vector2D.from_xy]
  rw [h]
  show atan2 0 (-1) = π
  exact atan2_zero_neg_one

/-- Claim C1 counterexample: at attraction constant 1, distance 2, weight 1,
the helper `attractive_force_n1_exerts_on_n2` produces a force of magnitude
1/4 (the inverse-square value 1*1/2^2), not 1*1*2 as the claim requires; and
in `apply_attractive_forces` the per-edge contribution added to endpoint 0 of
an edge between nodes at (0,0) and (1,0), built from that pair's distance 1
and bearing, is (-1, 0), whose dot product with the vector from endpoint 0
toward endpoint 1 is negative: the force points away from the other endpoint,
not toward it. -/
theorem C1_counterexample :
    Sim.attractive_force_n1_exerts_on_n2 1 2 1 0 = Vector2D.from_xy (1 / 4) 0 ∧
    (Sim.attractive_force_n1_exerts_on_n2 1 2 1 0).magnitude = 1 / 4 ∧
    (1 / 4 : ℝ) ≠ 1 * 1 * 2 ∧
    GraphMod.attractiveStep 1 (fun _ => 1)
        (fun _ => ((Vector2D.from_xy 0 0).relative_to (Vector2D.from_xy 1 0)).angle)
        (fun _ => Vector2D.from_xy 0 0) 0 ⟨0, 1, 1⟩ 0
      = Vector2D.from_xy (-1) 0 ∧
    (Vector2D.from_xy (-1) 0).dot
        ((Vector2D.from_xy 1 0).sub (Vector2D.from_xy 0 0)) < 0 := by
  have h1 : Sim.attractive_force_n1_exerts_on_n2 1 2 1 0
      = Vector2D.from_xy (1 / 4) 0 := by
    unfold Sim.attractive_force_n1_exerts_on_n2
    rw [show (1 : ℝ) * 1 / 2 ^ 2 = 1 / 4 by norm_num, from_rtheta_zero_angle]
  refine ⟨h1, ?_, by norm_num, ?_, ?_⟩
  · rw [h1, show Vector2D.from_xy (1 / 4) 0 = Vector2D.from_rtheta (1 / 4) 0 from
      (from_rtheta_zero_angle _).symm]
    exact from_rtheta_magnitude _ _ (by norm_num)
  · unfold GraphMod.attractiveStep
    simp only [set1, angle_relative_origin_unit]
    rw [show (1 : ℝ) * 1 * Edge.weight ⟨0, 1, 1⟩ = 1 by norm_num]
    rw [from_rtheta_pi_angle]
    norm_num
    apply Vector2D.ext_xy <;> simp [Vector2D.add, Vector2D.from_xy]
  · simp [Vector2D.dot, Vector2D.sub, Vector2D.from_xy]

/-- Claim C1 amended: every per-edge contribution of
`apply_attractive_forces` is built from the cached distance and bearing at
flat index 0 — the running `edge_idx` is declared but never incremented, so
the accumulator is invariant under replacing the whole caches by their cell 0
and no edge after the first precomputed pair uses the distance or bearing of
its own endpoints.  The contribution has magnitude
`attraction_constant * d0 * weight` (d0 the cached distance at index 0),
added to endpoint 1 and subtracted from endpoint 2; a polar force along a
cached bearing of the form `angle (p1 - p2)` is a nonnegative multiple of
`p1 - p2`, hence directed from each endpoint away from the other, not toward
it; and the pairwise helper `attractive_force_n1_exerts_on_n2` instead
computes magnitude `attraction_constant * w / d^2`. -/
theorem C1_attraction_amended (ac w m : ℝ) (dist dir : ℕ → ℝ)
    (tf : ℕ → Vector2D) (e : Edge) (p1 p2 : Vector2D)
    (fs : GraphMod.ForceSimulation)
    (hne : e.node1_idx ≠ e.node2_idx)
    (hnn : 0 ≤ ac * dist 0 * e.weight)
    (hp : ¬((p1.sub p2).x = 0 ∧ (p1.sub p2).y = 0)) :
    GraphMod.attractiveStep ac dist dir tf 0 e e.node1_idx
      = (tf e.node1_idx).add
          (Vector2D.from_rtheta (ac * dist 0 * e.weight) (dir 0)) ∧
    GraphMod.attractiveStep ac dist dir tf 0 e e.node2_idx
      = (tf e.node2_idx).sub
          (Vector2D.from_rtheta (ac * dist 0 * e.weight) (dir 0)) ∧
    (Vector2D.from_rtheta (ac * dist 0 * e.weight) (dir 0)).magnitude
      = ac * dist 0 * e.weight ∧
    (GraphMod.apply_attractive_forces fs).total_forces
      = (GraphMod.apply_attractive_forces
          { fs with distances := fun _ => fs.distances 0,
                    directions := fun _ => fs.directions 0 }).total_forces ∧
    Vector2D.from_rtheta m ((p1.relative_to p2).angle)
      = (p1.sub p2).mulScalar (m / p1.distance p2) ∧
    Sim.attractive_force_n1_exerts_on_n2 ac (dist 0) w (dir 0)
      = Vector2D.from_rtheta (ac * w / dist 0 ^ 2) (dir 0) := by
  refine ⟨?_, ?_, from_rtheta_magnitude _ _ hnn, rfl, ?_, rfl⟩
  · unfold GraphMod.attractiveStep
    simp [set1, hne, Ne.symm hne]
  · unfold GraphMod.attractiveStep
    simp [set1, hne, Ne.symm hne]
  · exact from_rtheta_angle m (p1.sub p2) hp

/-- Witness for the amended C1 at a concrete edge, node pair and simulation. -/
theorem C1_attraction_amended_witness :
    GraphMod.attractiveStep 1 (fun _ => 1) (fun _ => 0)
        (fun _ => Vector2D.from_xy 0 0) 0 ⟨0, 1, 2⟩ 0
      = ((fun _ => Vector2D.from_xy 0 0) (0 : ℕ)).add
          (Vector2D.from_rtheta (1 * 1 * Edge.weight ⟨0, 1, 2⟩) 0) ∧
    (Vector2D.from_rtheta (1 * 1 * Edge.weight ⟨0, 1, 2⟩) 0).magnitude
      = 1 * 1 * Edge.weight ⟨0, 1, 2⟩ := by
  have h := C1_attraction_amended 1 1 3 (fun _ => 1) (fun _ => 0)
    (fun _ => Vector2D.from_xy 0 0) ⟨0, 1, 2⟩
    (Vector2D.from_xy 0 0) (Vector2D.from_xy 1 0)
    (GraphMod.new [] [] 1 1)
    (by decide) (by norm_num)
    (by simp [Vector2D.sub, Vector2D.from_xy])
  exact ⟨h.1, h.2.2.1⟩

/-- Claim C2 counterexample: for node 1 at (0,0) and node 2 at (1,0), both of
mass 1, with repulsion constant 1 and attraction constant 0, the total force
node 1 exerts on node 2 is (-1, 0): its dot product with the vector from
node 1 toward node 2 is negative, so it is directed from node 2 toward node 1,
not away from node 1 as the claim requires.  Moreover the accumulation routine
`apply_repulsive_forces` produces a per-pair force of magnitude
`repulsion_constant / d^2` with no mass factors: at distance 1 it contributes
magnitude 1 regardless of the masses, while for masses 2 and 2 the claim
requires 1*2*2/1^2 = 4. -/
theorem C2_counterexample :
    GraphMod.total_force_n1_exerts_on_n2 1 0 (nodeAt (Vector2D.from_xy 0 0) 1)
        (nodeAt (Vector2D.from_xy 1 0) 1) 1 = Vector2D.from_xy (-1) 0 ∧
    (Vector2D.from_xy (-1) 0).dot
        ((nodeAt (Vector2D.from_xy 1 0) 1).position.sub
          (nodeAt (Vector2D.from_xy 0 0) 1).position) < 0 ∧
    GraphMod.repulsiveStep 1 (fun _ => 1) (fun _ => 0)
        (fun _ => Vector2D.from_xy 0 0) 0 0 1 1 = Vector2D.from_xy 1 0 ∧
    (Vector2D.from_xy 1 0).magnitude = 1 ∧
    (1 : ℝ) ≠ 1 * 2 * 2 / 1 ^ 2 := by
  have hd : (nodeAt (Vector2D.from_xy 0 0) 1).position.distance
      (nodeAt (Vector2D.from_xy 1 0) 1).position = 1 := by
    unfold nodeAt Vector2D.distance Vector2D.sub Vector2D.magnitude
      Vector2D.from_xy
    simp only
    rw [show ((0:ℝ) - 1) * (0 - 1) + (0 - 0) * (0 - 0) = 1 by norm_num]
    exact Real.sqrt_one
  refine ⟨?_, ?_, ?_, ?_, by norm_num⟩
  · unfold GraphMod.total_force_n1_exerts_on_n2
    simp only [hd]
    rw [show max (1 : ℝ) 1e-5 = 1 from max_eq_left (by norm_num)]
    have hang : ((nodeAt (Vector2D.from_xy 0 0) 1).position.relative_to
        (nodeAt (Vector2D.from_xy 1 0) 1).position).angle = π := by
      unfold nodeAt
      simp only
      exact angle_relative_origin_unit
    rw [hang]
    unfold GraphMod.repulsive_force_n1_exerts_on_n2
      GraphMod.attractive_force_n1_exerts_on_n2
    rw [from_rtheta_pi_angle, from_rtheta_pi_angle]
    unfold nodeAt
    apply Vector2D.ext_xy <;> simp [Vector2D.add, Vector2D.from_xy] <;> norm_num
  · simp [Vector2D.dot, Vector2D.sub, Vector2D.from_xy, nodeAt]
  · unfold GraphMod.repulsiveStep
    rw [if_pos (by norm_num : (1e-5 : ℝ) < 1)]
    simp only [set1]
    rw [show (1 : ℝ) / 1 ^ 2 = 1 by norm_num, from_rtheta_zero_angle]
    norm_num
    apply Vector2D.ext_xy <;> simp [Vector2D.add, Vector2D.sub, Vector2D.from_xy]
  · rw [show Vector2D.from_xy 1 0 = Vector2D.from_rtheta 1 0 from
      (from_rtheta_zero_angle _).symm]
    exact from_rtheta_magnitude _ _ (by norm_num)

/-- Claim C2 amended: the pairwise helper `repulsive_force_n1_exerts_on_n2`
(identical in both modules) produces a force of magnitude
`repulsion_constant * m1 * m2 / d^2`; in `apply_repulsive_forces` the two
per-pair contributions are exact negations of each other (`-f` to slot `i`,
`+f` to slot `j`), but with the mass-free magnitude `repulsion_constant / d^2`;
and a polar force along the cached bearing (the angle of `p1 - p2`) is a
nonnegative multiple of `p1 - p2`, so the repulsive force on node 2 is
directed from node 2 toward node 1, the opposite of the claimed direction. -/
theorem C2_repulsion_amended (rc m1 m2 d θ m : ℝ) (dist dir : ℕ → ℝ)
    (tf : ℕ → Vector2D) (k i j : ℕ) (p1 p2 : Vector2D)
    (hne : i ≠ j) (hguard : 1e-5 < dist k)
    (hnn : 0 ≤ rc * m1 * m2 / d ^ 2)
    (hp : ¬((p1.sub p2).x = 0 ∧ (p1.sub p2).y = 0)) :
    (GraphMod.repulsive_force_n1_exerts_on_n2 rc d m1 m2 θ).magnitude
      = rc * m1 * m2 / d ^ 2 ∧
    GraphMod.repulsiveStep rc dist dir tf k i j i
      = (tf i).sub (Vector2D.from_rtheta (rc / dist k ^ 2) (dir k)) ∧
    GraphMod.repulsiveStep rc dist dir tf k i j j
      = (tf j).add (Vector2D.from_rtheta (rc / dist k ^ 2) (dir k)) ∧
    Vector2D.from_rtheta m ((p1.relative_to p2).angle)
      = (p1.sub p2).mulScalar (m / p1.distance p2) := by
  refine ⟨from_rtheta_magnitude _ _ hnn, ?_, ?_, from_rtheta_angle m _ hp⟩
  · unfold GraphMod.repulsiveStep
    rw [if_pos hguard]
    simp [set1, hne, Ne.symm hne]
  · unfold GraphMod.repulsiveStep
    rw [if_pos hguard]
    simp [set1, hne, Ne.symm hne]

/-- Witness for the amended C2 at concrete masses, distance and slots. -/
theorem C2_repulsion_amended_witness :
    (GraphMod.repulsive_force_n1_exerts_on_n2 1 1 2 2 0).magnitude
      = 1 * 2 * 2 / 1 ^ 2 ∧
    GraphMod.repulsiveStep 1 (fun _ => 1) (fun _ => 0)
        (fun _ => Vector2D.from_xy 0 0) 0 0 1 0
      = ((fun _ => Vector2D.from_xy 0 0) (0 : ℕ)).sub
          (Vector2D.from_rtheta (1 / (1 : ℝ) ^ 2) 0) := by
  have h := C2_repulsion_amended 1 2 2 1 0 5 (fun _ => 1) (fun _ => 0)
    (fun _ => Vector2D.from_xy 0 0) 0 0 1
    (Vector2D.from_xy 0 0) (Vector2D.from_xy 1 0)
    (by decide) (by norm_num) (by norm_num)
    (by simp [Vector2D.sub, Vector2D.from_xy])
  exact ⟨h.1, h.2.1⟩

/-- Claim C8 counterexample: both constructors accept, with no error value, a
graph whose only edge references node index 5 (out of range for a single-node
list) and has weight -1 (not strictly positive): a simulation is produced, and
it stores the invalid edge unchanged. -/
theorem C8_counterexample :
    (Sim.new [nodeAt (Vector2D.from_xy 0 0) 1] [⟨0, 5, -1⟩] 1 1 1).edges
      = [⟨0, 5, -1⟩] ∧
    (Sim.new [nodeAt (Vector2D.from_xy 0 0) 1] [⟨0, 5, -1⟩] 1 1 1).nodes
      = [nodeAt (Vector2D.from_xy 0 0) 1] ∧
    ¬ Edge.node2_idx ⟨0, 5, -1⟩ < (
      [nodeAt (Vector2D.from_xy 0 0) 1] : List Node).length ∧
    Edge.weight ⟨0, 5, -1⟩ ≤ 0 ∧
    (GraphMod.new [nodeAt (Vector2D.from_xy 0 0) 1] [⟨0, 5, -1⟩] 1 1).edges
      = [⟨0, 5, -1⟩] := by
  refine ⟨rfl, rfl, by simp, ?_, rfl⟩
  show (-1 : ℝ) ≤ 0
  norm_num

/-- Claim C8 amended: construction performs no validation at all.  Both
constructors are total functions that succeed on every input, storing the
given edges unchanged (the graph-module constructor additionally rewrites the
node masses from the incident edge weights); no `InvalidGraph` error value
exists anywhere in the code. -/
theorem C8_construction_amended (nodes : List Node) (edges : List Edge)
    (ts rc ac : ℝ) :
    (Sim.new nodes edges ts rc ac).nodes = nodes ∧
    (Sim.new nodes edges ts rc ac).edges = edges ∧
    (GraphMod.new nodes edges rc ac).edges = edges ∧
    (GraphMod.new nodes edges rc ac).nodes.length = nodes.length := by
  refine ⟨rfl, rfl, rfl, ?_⟩
  unfold GraphMod.new GraphMod.update_node_mass
  simp [List.length_mapIdx]

theorem nodeGet_mapIdx (l : List Node) (f : ℕ → Node → Node) (i : ℕ)
    (hi : i < l.length) :
    nodeGet (l.mapIdx f) i = f i (nodeGet l i) := by
  unfold nodeGet
  rw [List.getD_eq_getElem _ _ (by simpa [List.length_mapIdx] using hi),
    List.getElem_mapIdx, List.getD_eq_getElem _ _ hi]

theorem map_mapIdx_eq {α β γ : Type} (l : List α) (f : ℕ → α → β) (g : β → γ)
    (g' : α → γ) (h : ∀ i a, g (f i a) = g' a) :
    (l.mapIdx f).map g = l.map g' := by
  rw [List.mapIdx_eq_enum_map, List.map_map]
  rw [show g ∘ Function.uncurry f = fun p : ℕ × α => g' p.2 from
    funext fun p => h p.1 p.2]
  rw [show (fun p : ℕ × α => g' p.2) = g' ∘ Prod.snd from rfl, ← List.map_map,
    List.enum_map_snd]

/-- Claim C7 counterexample: for two coincident nodes constructed with mass 1
and a single edge of weight 5, the simulation-module constructor caches masses
[1, 1] while the incident-edge-weight sum at node 0 is 5; `step` never invokes
`update_masses`, and the pairwise force it computes (via
`total_force_n1_exerts_on_n2`, which reads the stored node masses) differs
from the force that the edge-derived masses would give. -/
theorem C7_counterexample :
    (Sim.new [nodeAt (Vector2D.from_xy 0 0) 1, nodeAt (Vector2D.from_xy 0 0) 1]
        [⟨0, 1, 5⟩] 1 1 1).masses = [1, 1] ∧
    Sim.get_node_mass
        (Sim.new [nodeAt (Vector2D.from_xy 0 0) 1, nodeAt (Vector2D.from_xy 0 0) 1]
          [⟨0, 1, 5⟩] 1 1 1) 0 = 5 ∧
    (1 : ℝ) ≠ 5 ∧
    Sim.total_force_n1_exerts_on_n2 1 1 (nodeAt (Vector2D.from_xy 0 0) 1)
        (nodeAt (Vector2D.from_xy 0 0) 1) 5
      = Vector2D.from_xy ((1 * 5 - 1 * 1 * 1) / (1e-5) ^ 2) 0 ∧
    Sim.total_force_n1_exerts_on_n2 1 1 (nodeAt (Vector2D.from_xy 0 0) 5)
        (nodeAt (Vector2D.from_xy 0 0) 5) 5
      = Vector2D.from_xy ((1 * 5 - 1 * 5 * 5) / (1e-5) ^ 2) 0 ∧
    Vector2D.from_xy ((1 * 5 - 1 * 1 * 1) / ((1e-5) : ℝ) ^ 2) 0
      ≠ Vector2D.from_xy ((1 * 5 - 1 * 5 * 5) / (1e-5) ^ 2) 0 := by
  refine ⟨rfl, ?_, by norm_num, ?_, ?_, ?_⟩
  · show getNodeMass [⟨0, 1, 5⟩] 0 = 5
    unfold getNodeMass
    norm_num
  · rw [sim_total_force_coincident 1 1 5 _ _ rfl]
    rfl
  · rw [sim_total_force_coincident 1 1 5 _ _ rfl]
    rfl
  · intro hc
    have hx := congrArg Vector2D.x hc
    simp only [Vector2D.from_xy] at hx
    norm_num at hx

theorem sim_step_preserves_mass (gs gs' : Sim.ForceSimulation)
    (h : Sim.step gs = some gs') :
    gs'.masses = gs.masses ∧ gs'.nodes.map Node.mass = gs.nodes.map Node.mass := by
  have h2 : Sim.update_positions_and_velocities
      (Sim.update_directions (Sim.update_distances gs)) = some gs' := by
    simp only [Sim.step] at h
    cases happly : Sim.apply_forces
        (Sim.update_directions (Sim.update_distances gs)) with
    | none => rw [happly] at h; simp at h
    | some dpv => rw [happly] at h; exact h
  unfold Sim.update_positions_and_velocities at h2
  cases happly : Sim.apply_forces
      (Sim.update_directions (Sim.update_distances gs)) with
  | none => rw [happly] at h2; simp at h2
  | some dpv =>
      rw [happly] at h2
      have h1 := Option.some.inj h2
      rw [← h1]
      exact ⟨rfl, map_mapIdx_eq _ _ _ _ (fun _ _ => rfl)⟩

/-- Claim C7 amended: masses are derived from edge weights only at
construction time, and only by the graph module (`new` calls
`update_node_mass`); the simulation module caches the caller-supplied node
masses at construction, and its `step` recomputes neither the cached masses
nor the node mass fields, so a host-side edge mutation between steps is not
reflected. -/
theorem C7_mass_amended (nodes : List Node) (edges : List Edge) (ts rc ac : ℝ)
    (i : ℕ) (hi : i < nodes.length) (gs gs' : Sim.ForceSimulation)
    (hstep : Sim.step gs = some gs') :
    (nodeGet (GraphMod.new nodes edges rc ac).nodes i).mass
      = getNodeMass edges i ∧
    (Sim.new nodes edges ts rc ac).masses = nodes.map Node.mass ∧
    gs'.masses = gs.masses ∧
    gs'.nodes.map Node.mass = gs.nodes.map Node.mass := by
  have hnodes : (GraphMod.new nodes edges rc ac).nodes
      = nodes.mapIdx
          (fun node_idx n => { n with mass := getNodeMass edges node_idx }) := rfl
  refine ⟨?_, rfl, (sim_step_preserves_mass gs gs' hstep).1,
    (sim_step_preserves_mass gs gs' hstep).2⟩
  rw [hnodes, nodeGet_mapIdx _ _ _ hi]

/-- Witness for the amended C7: a concrete one-node simulation, whose `step`
evaluates to a defined result. -/
theorem C7_mass_amended_witness :
    (nodeGet (GraphMod.new [nodeAt (Vector2D.from_xy 0 0) 1] [] 1 1).nodes 0).mass
      = getNodeMass [] 0 ∧
    (Sim.step (Sim.new [nodeAt (Vector2D.from_xy 0 0) 1] [] 1 1 1)).map
        Sim.ForceSimulation.masses
      = some (Sim.new [nodeAt (Vector2D.from_xy 0 0) 1] [] 1 1 1).masses := by
  cases hstep : Sim.step (Sim.new [nodeAt (Vector2D.from_xy 0 0) 1] [] 1 1 1) with
  | none =>
      have hsome : (Sim.step
          (Sim.new [nodeAt (Vector2D.from_xy 0 0) 1] [] 1 1 1)).isSome = true := rfl
      rw [hstep] at hsome
      cases hsome
  | some gs' =>
      have h := C7_mass_amended [nodeAt (Vector2D.from_xy 0 0) 1] [] 1 1 1 0
        (by simp) _ gs' hstep
      exact ⟨h.1, by simp [h.2.2.1]⟩

theorem node_pv_update_self (n : Node) :
    { n with position := n.position.add (Vector2D.from_xy 0 0),
             velocity := n.velocity.add (Vector2D.from_xy 0 0) } = n := by
  rw [Vector2D.add_zero_vec, Vector2D.add_zero_vec]

/-- Claim C9 counterexample: in the simulation module, with two coincident
nodes of mass 1 joined by an edge of weight 1 (repulsion 0, attraction 1,
dt = 1), `step` leaves node 1 completely unchanged (its accumulation loops run
over `0..(n-1) = {0}` only), while the claimed semi-implicit rule
`velocity + (F/m)*dt` gives the nonzero velocity (1e10, 0) from the net force
node 0 exerts on node 1.  The code therefore does not implement
`v = v + (F/m) dt` for every node. -/
theorem C9_counterexample :
    (Sim.step (Sim.new
        [nodeAt (Vector2D.from_xy 0 0) 1, nodeAt (Vector2D.from_xy 0 0) 1]
        [⟨0, 1, 1⟩] 1 0 1)).map (fun s => s.nodes.getD 1 Node.default)
      = some (nodeAt (Vector2D.from_xy 0 0) 1) ∧
    (nodeAt (Vector2D.from_xy 0 0) 1).velocity.add
        (((Sim.total_force_n1_exerts_on_n2 0 1 (nodeAt (Vector2D.from_xy 0 0) 1)
            (nodeAt (Vector2D.from_xy 0 0) 1) 1).divScalar
          (nodeAt (Vector2D.from_xy 0 0) 1).mass).mulScalar 1)
      = Vector2D.from_xy ((1 * 1 - 0 * 1 * 1) / (1e-5) ^ 2) 0 ∧
    (1 * 1 - 0 * 1 * 1) / ((1e-5) : ℝ) ^ 2 = 1e10 ∧
    Vector2D.from_xy ((1 * 1 - 0 * 1 * 1) / ((1e-5) : ℝ) ^ 2) 0
      ≠ (nodeAt (Vector2D.from_xy 0 0) 1).velocity := by
  refine ⟨?_, ?_, by norm_num, ?_⟩
  · have h : (Sim.step (Sim.new
        [nodeAt (Vector2D.from_xy 0 0) 1, nodeAt (Vector2D.from_xy 0 0) 1]
        [⟨0, 1, 1⟩] 1 0 1)).map (fun s => s.nodes.getD 1 Node.default)
        = some { nodeAt (Vector2D.from_xy 0 0) 1 with
            position := (nodeAt (Vector2D.from_xy 0 0) 1).position.add
              (Vector2D.from_xy 0 0),
            velocity := (nodeAt (Vector2D.from_xy 0 0) 1).velocity.add
              (Vector2D.from_xy 0 0) } := rfl
    rw [h, node_pv_update_self]
  · rw [sim_total_force_coincident 0 1 1 _ _ rfl]
    apply Vector2D.ext_xy <;>
      simp [Vector2D.add, Vector2D.mulScalar, Vector2D.divScalar,
        Vector2D.from_xy, nodeAt] <;> norm_num
  · intro hc
    have hx := congrArg Vector2D.x hc
    simp only [Vector2D.from_xy, nodeAt] at hx
    norm_num at hx

/-- Claim C9 amended: the graph-module `update` integrates every node by
semi-implicit Euler exactly as the claim states (the velocity is updated by
`(F/m)*dt` first and the new position uses the updated velocity), and the
computation is a pure function of its inputs; the simulation-module per-pair
helper `chg_in_position` instead produces the kinematics increment
`v*dt + a*dt^2/2` computed from the pre-update velocity. -/
theorem C9_integrator_amended (nodes : List Node) (tf : ℕ → Vector2D)
    (dt : ℝ) (i : ℕ) (hi : i < nodes.length) (rc ac : ℝ) (n1 n2 : Node)
    (w dt2 : ℝ) :
    (nodeGet (GraphMod.integrate nodes tf dt) i).velocity
      = (nodeGet nodes i).velocity.add
          (((tf i).divScalar (nodeGet nodes i).mass).mulScalar dt) ∧
    (nodeGet (GraphMod.integrate nodes tf dt) i).position
      = (nodeGet nodes i).position.add
          ((((nodeGet nodes i).velocity.add
            (((tf i).divScalar (nodeGet nodes i).mass).mulScalar dt))).mulScalar
            dt) ∧
    Sim.chg_in_position_from_force_n1_exerts_on_n2 rc ac n1 n2 w dt2
      = (n2.velocity.mulScalar dt2).add
          (((Sim.acceleration_from_force_n1_exerts_on_n2 rc ac n1 n2
            w).mulScalar (dt2 ^ 2)).divScalar 2) := by
  refine ⟨?_, ?_, ?_⟩
  · rw [GraphMod.integrate, nodeGet_mapIdx _ _ _ hi]
  · rw [GraphMod.integrate, nodeGet_mapIdx _ _ _ hi]
  · unfold Sim.chg_in_position_from_force_n1_exerts_on_n2
    apply Vector2D.ext_xy <;>
      simp [Vector2D.add, Vector2D.sub, Vector2D.mulScalar,
        Vector2D.divScalar] <;> ring

/-- Witness for the amended C9 at a concrete node list and force table. -/
theorem C9_integrator_amended_witness :
    (nodeGet (GraphMod.integrate [nodeAt (Vector2D.from_xy 0 0) 1]
        (fun _ => Vector2D.from_xy 1 0) 1) 0).velocity
      = (nodeGet [nodeAt (Vector2D.from_xy 0 0) 1] 0).velocity.add
          ((((fun _ => Vector2D.from_xy 1 0) (0 : ℕ)).divScalar
            (nodeGet [nodeAt (Vector2D.from_xy 0 0) 1] 0).mass).mulScalar 1) ∧
    Sim.chg_in_position_from_force_n1_exerts_on_n2 1 1
        (nodeAt (Vector2D.from_xy 0 0) 1) (nodeAt (Vector2D.from_xy 0 0) 1) 1 1
      = (((nodeAt (Vector2D.from_xy 0 0) 1).velocity.mulScalar 1).add
          (((Sim.acceleration_from_force_n1_exerts_on_n2 1 1
            (nodeAt (Vector2D.from_xy 0 0) 1) (nodeAt (Vector2D.from_xy 0 0) 1)
            1).mulScalar (1 ^ 2)).divScalar 2)) := by
  have h := C9_integrator_amended [nodeAt (Vector2D.from_xy 0 0) 1]
    (fun _ => Vector2D.from_xy 1 0) 1 0 (by simp) 1 1
    (nodeAt (Vector2D.from_xy 0 0) 1) (nodeAt (Vector2D.from_xy 0 0) 1) 1 1
  exact ⟨h.1, h.2.2⟩

/-- Claim C10 (code bug): for a simulation holding exactly one node and no
edges, the simulation-module `step` leaves the node list unchanged and its
force matrix is identically zero (so the claim holds there); but the
graph-module `update` panics before doing anything: the loop bound
`self.nodes.len() - 2` of `precompute_distances_and_directions` underflows
for one node, modelled by the `none` result. -/
theorem C10_single_node_step :
    GraphMod.precompute_distances_and_directions
        (GraphMod.new [nodeAt (Vector2D.from_xy 0 0) 1] [] 1 1) = none ∧
    GraphMod.update (GraphMod.new [nodeAt (Vector2D.from_xy 0 0) 1] [] 1 1) 1
      = none ∧
    (Sim.step (Sim.new [nodeAt (Vector2D.from_xy 0 0) 1] [] 1 1 1)).map
        Sim.ForceSimulation.nodes
      = some [nodeAt (Vector2D.from_xy 0 0) 1] ∧
    Sim.calculate_forces (Sim.new [nodeAt (Vector2D.from_xy 0 0) 1] [] 1 1 1)
      = some (fun _ _ => Vector2D.from_xy 0 0) := by
  refine ⟨rfl, rfl, ?_, rfl⟩
  have h : (Sim.step (Sim.new [nodeAt (Vector2D.from_xy 0 0) 1] [] 1 1 1)).map
      Sim.ForceSimulation.nodes
      = some [{ nodeAt (Vector2D.from_xy 0 0) 1 with
          position := (nodeAt (Vector2D.from_xy 0 0) 1).position.add
            (Vector2D.from_xy 0 0),
          velocity := (nodeAt (Vector2D.from_xy 0 0) 1).velocity.add
            (Vector2D.from_xy 0 0) }] := rfl
  rw [h, node_pv_update_self]

end

end PredGraph
